import Mathlib

/-!
Verification of the THORChain Ledger host-side driver (TypeScript sources
`src/index.ts`, `src/helper.ts`) against its natural-language specification.

Byte sequences (Node `Buffer` values) are modelled as `List Nat`; every byte
of a well-formed transport response is `< 256`, stated as a hypothesis where
it matters.  Functions that `throw` in TypeScript return `Except LErr`.
Strings are modelled at the byte level: a JavaScript string handed to the
serializers is its byte sequence (exact for the ASCII range, which is all the
protocol uses; the spec declares non-ASCII behaviour undefined).
-/

/-- Fixed payload size per packet.  Modelled from the spec: `CHUNK_SIZE` lives
in `common.ts`, which is not among the provided sources; §6 of the spec pins
it to 150 bytes. -/
def CHUNK_SIZE : Nat := 150

/-- Success status code.  The spec (§3) pins `NoErrors` to 0x9000. -/
def LedgerErrorType.NoErrors : Nat := 0x9000

/-- Modelled from the spec: `common.ts` (absent from the sources) assigns the
numeric codes; the spec only names the kinds, so the conventional APDU value
is used.  Only its distinctness from the other codes matters below. -/
def LedgerErrorType.DataIsInvalid : Nat := 0x6a80

/-- Modelled from the spec: conventional APDU value for the bad-key-handle
status named by the error taxonomy (§7). -/
def LedgerErrorType.BadKeyHandle : Nat := 0x6a81

/-- Modelled from the spec: conventional APDU value for the sign/verify
failure status named by the error taxonomy (§7). -/
def LedgerErrorType.SignVerifyError : Nat := 0x6986

/-- App-not-open status; the spec (§4.3) pins the dashboard-only special case
to 0x6E00. -/
def LedgerErrorType.AppDoesNotSeemToBeOpen : Nat := 0x6e00

/-- Modelled from the spec: code used by the version dispatcher's
`UnsupportedVersion` hard error (`LedgerErrorType.ExecutionError` in
`common.ts`, absent from the sources). -/
def LedgerErrorType.ExecutionError : Nat := 0x6400

/-- Errors thrown by the driver: transport-level status rejections,
`LedgerError(code, message)` values, the plain `Error("Invalid path.")` of
the path serializer, Node's `ERR_OUT_OF_RANGE` from `Buffer.writeUInt32LE`,
and the HRP validity error. -/
inductive LErr where
  | transportStatus (code : Nat)
  | ledger (code : Nat) (msg : String)
  | invalidPath
  | rangeError
  | hprInvalid
deriving DecidableEq, Repr

/-- Model of `Buffer.prototype.slice(start, end)` for non-negative indices:
the bytes at indices `[s, min e len)`. -/
def bufSlice (b : List Nat) (s e : Nat) : List Nat := (b.drop s).take (e - s)

/-- Model of `response.slice(-2)` followed by `data[0] * 256 + data[1]`: the
big-endian status word taken from the last two bytes (the sources only apply
this to responses of length ≥ 2, which every transport reply satisfies). -/
def statusOf (b : List Nat) : Nat :=
  b.getD (b.length - 2) 0 * 256 + b.getD (b.length - 1) 0

/-- Model of `Buffer.prototype.toString("ascii")`: Node strips the high bit
of every byte. -/
def asciiStr (b : List Nat) : String :=
  String.mk (b.map fun x => Char.ofNat (x % 128))

/-- Model of `Buffer.prototype.toString()` at the byte level (exact for the
ASCII range the protocol carries). -/
def bytesToText (b : List Nat) : String :=
  String.mk (b.map fun x => Char.ofNat x)

/-- Two lowercase hex digits of one byte. -/
def byteHex (b : Nat) : List Char :=
  [Nat.digitChar (b / 16 % 16), Nat.digitChar (b % 16)]

/-- Model of `Buffer.prototype.toString("hex")`. -/
def hexStr (b : List Nat) : String := String.mk (b.map byteHex).flatten

/-- Modelled from the spec: `errorCodeToString` lives in `common.ts`, absent
from the sources; §4.4 requires a total translation table with a stable
default for unmapped codes. -/
def errorCodeToString (code : Nat) : String :=
  if code = LedgerErrorType.NoErrors then "No errors"
  else if code = LedgerErrorType.DataIsInvalid then "Data is invalid"
  else if code = LedgerErrorType.BadKeyHandle then "Bad key handle"
  else if code = LedgerErrorType.SignVerifyError then "Sign/verify error"
  else if code = LedgerErrorType.AppDoesNotSeemToBeOpen then "App does not seem to be open"
  else if code = LedgerErrorType.ExecutionError then "Execution Error"
  else "Unknown Return Code: " ++ toString code

/-- Modelled from the spec: the Transport Adapter contract (§2, §6).  The
transport is an external collaborator; `send` fails with a transport-level
error whenever the reply's status code is not in the caller-supplied
acceptable set, and otherwise hands back the raw reply. -/
def transportSendCheck (acceptable : List Nat) (raw : List Nat) : Except LErr (List Nat) :=
  if statusOf raw ∈ acceptable then Except.ok raw
  else Except.error (LErr.transportStatus (statusOf raw))

/-- `serializeHRP` of `index.ts` (static method of `THORChainApp`), byte for
byte identical to `serializeHRP` of `helper.ts`.  A JavaScript `null` or
`undefined` argument is `none`; the string argument is its byte sequence
(the falsy check `!hrp` also rejects the empty string, subsumed here by the
length test). -/
def serializeHRP (hrp : Option (List Nat)) : Except LErr (List Nat) :=
  match hrp with
  | none => Except.error LErr.hprInvalid
  | some s =>
    if s.length = 0 ∨ s.length < 3 ∨ 83 < s.length then Except.error LErr.hprInvalid
    else Except.ok (s.length :: s)

/-- Little-endian byte split of a 32-bit value. -/
def le32 (v : Nat) : List Nat :=
  [v % 256, v / 2 ^ 8 % 256, v / 2 ^ 16 % 256, v / 2 ^ 24 % 256]

/-- Model of `Buffer.writeUInt32LE`: stores the four little-endian bytes, and
throws `ERR_OUT_OF_RANGE` for a value that does not fit in 32 bits (Node
validates the range; it does not wrap). -/
def writeUInt32LE (v : Nat) : Except LErr (List Nat) :=
  if v < 2 ^ 32 then Except.ok (le32 v)
  else Except.error LErr.rangeError

/-- Little-endian 32-bit read at a byte offset, for stating round-trip
properties of the path serialization. -/
def readUInt32LE (b : List Nat) (off : Nat) : Nat :=
  b.getD off 0 + 2 ^ 8 * b.getD (off + 1) 0 + 2 ^ 16 * b.getD (off + 2) 0 +
    2 ^ 24 * b.getD (off + 3) 0

/-- `serializePathv2` of `helper.ts` (also `serializePath` of the refactored
helper): five sequential 32-bit little-endian writes into a 20-byte buffer,
the first three with `0x80000000` added. -/
def serializePathv2 (path : List Nat) : Except LErr (List Nat) :=
  if path.length ≠ 5 then Except.error LErr.invalidPath
  else do
    let w0 ← writeUInt32LE (0x80000000 + path.getD 0 0)
    let w1 ← writeUInt32LE (0x80000000 + path.getD 1 0)
    let w2 ← writeUInt32LE (0x80000000 + path.getD 2 0)
    let w3 ← writeUInt32LE (path.getD 3 0)
    let w4 ← writeUInt32LE (path.getD 4 0)
    pure (w0 ++ w1 ++ w2 ++ w3 ++ w4)

/-- The three chunk-position markers (`PAYLOAD_TYPE` of `common.ts`; the
numeric values are irrelevant, only the choice of marker is). -/
inductive PayloadType where
  | INIT
  | ADD
  | LAST
deriving DecidableEq, Repr

/-- Marker selection of `signSendChunkv2` (`helper.ts`), identical to the
head of `signSendChunk` in the refactored helper: start from `ADD,`
overwrite with `INIT` when `chunkIdx === 1`, then overwrite with `LAST` when
`chunkIdx === chunkNum`. -/
def payloadMarker (chunkIdx chunkNum : Nat) : PayloadType :=
  let payloadType := PayloadType.ADD
  let payloadType := if chunkIdx = 1 then PayloadType.INIT else payloadType
  let payloadType := if chunkIdx = chunkNum then PayloadType.LAST else payloadType
  payloadType

/-- Decoded sign-chunk result (`SignResponse` of `types.ts`); the refactored
helper omits the `signature` field on non-terminal results, modelled as
`none`. -/
structure SignResult where
  returnCode : Nat
  errorMessage : String
  signature : Option (List Nat)
deriving DecidableEq, Repr

/-- `signSendChunkv1` of `helper.ts`, as a function of the raw device reply:
the transport accepts `NoErrors`, `DataIsInvalid` and `BadKeyHandle`; for the
two recognized failures the ASCII payload is appended to the translated
message; any reply longer than two bytes is returned as a result whose
`signature` field is the payload, and a bare status is thrown as a
`LedgerError`. -/
def signSendChunkv1 (p1 : PayloadType) (raw : List Nat) : Except LErr SignResult := do
  let _ := p1
  let response ← transportSendCheck
    [LedgerErrorType.NoErrors, LedgerErrorType.DataIsInvalid, LedgerErrorType.BadKeyHandle] raw
  let returnCode := statusOf response
  let errorMessage := errorCodeToString returnCode
  let errorMessage :=
    if returnCode = LedgerErrorType.BadKeyHandle ∨ returnCode = LedgerErrorType.DataIsInvalid then
      errorMessage ++ " : " ++ asciiStr (bufSlice response 0 (response.length - 2))
    else errorMessage
  if 2 < response.length then
    Except.ok
      { returnCode := returnCode
        errorMessage := errorMessage
        signature := some (bufSlice response 0 (response.length - 2)) }
  else Except.error (LErr.ledger returnCode errorMessage)

/-- `signSendChunkv2` of `helper.ts`: picks the payload marker and delegates
to `signSendChunkv1` with the marker as the `P1` byte. -/
def signSendChunkv2 (chunkIdx chunkNum : Nat) (raw : List Nat) : Except LErr SignResult :=
  signSendChunkv1 (payloadMarker chunkIdx chunkNum) raw

namespace Helper

/-- `signSendChunk` of the refactored `helper.ts`, as a function of the raw
device reply: the transport additionally accepts `SignVerifyError`; the three
recognized failures append the ASCII payload to the message and throw; a
signature is returned only on `NoErrors` with payload present; otherwise a
bare result without signature is returned.  (The payload marker it computes
is exactly `payloadMarker`.) -/
def signSendChunk (chunkIdx chunkNum : Nat) (raw : List Nat) : Except LErr SignResult := do
  let _ := payloadMarker chunkIdx chunkNum
  let response ← transportSendCheck
    [LedgerErrorType.NoErrors, LedgerErrorType.DataIsInvalid,
     LedgerErrorType.BadKeyHandle, LedgerErrorType.SignVerifyError] raw
  let returnCode := statusOf response
  let errorMessage := errorCodeToString returnCode
  if returnCode = LedgerErrorType.BadKeyHandle ∨ returnCode = LedgerErrorType.DataIsInvalid
      ∨ returnCode = LedgerErrorType.SignVerifyError then
    Except.error (LErr.ledger returnCode
      (errorMessage ++ " : " ++ asciiStr (bufSlice response 0 (response.length - 2))))
  else if returnCode = LedgerErrorType.NoErrors ∧ 2 < response.length then
    Except.ok
      { returnCode := returnCode
        errorMessage := errorMessage
        signature := some (bufSlice response 0 (response.length - 2)) }
  else
    Except.ok { returnCode := returnCode, errorMessage := errorMessage, signature := none }

end Helper

/-- Decoded version reply (`VersionResponse` of `types.ts`).  Out-of-range
byte reads yield JavaScript `undefined`, modelled as `none` for the numeric
fields. -/
structure VersionResponse where
  returnCode : Nat
  errorMessage : String
  testMode : Bool
  major : Option Nat
  minor : Option Nat
  patch : Option Nat
  deviceLocked : Bool
  targetId : String
deriving DecidableEq, Repr

/-- JavaScript 32-bit signed reinterpretation (`ToInt32`). -/
def asInt32 (n : Nat) : Int :=
  if n % 2 ^ 32 < 2 ^ 31 then ((n % 2 ^ 32 : Nat) : Int)
  else ((n % 2 ^ 32 : Nat) : Int) - 2 ^ 32

/-- JavaScript `x << k` for a non-negative integer `x`. -/
def jsShiftL (x k : Nat) : Int := asInt32 (x * 2 ^ k)

/-- Model of JavaScript `Number.prototype.toString(16)` for integers. -/
def intToHexStr (i : Int) : String :=
  if i < 0 then "-" ++ String.mk (Nat.toDigits 16 i.natAbs)
  else String.mk (Nat.toDigits 16 i.toNat)

namespace Helper

/-- The `targetId` accumulation of `getVersion` (`helper.ts`):
`(r[5] << 24) + (r[6] << 16) + (r[7] << 8) + (r[8] << 0)` with JavaScript
32-bit shifts. -/
def targetIdNum (response : List Nat) : Int :=
  jsShiftL (response.getD 5 0) 24 + jsShiftL (response.getD 6 0) 16 +
    jsShiftL (response.getD 7 0) 8 + jsShiftL (response.getD 8 0) 0

/-- `getVersion` of `helper.ts`, as a function of the raw device reply (the
transport call uses the default acceptable set, `NoErrors` only).  `index.ts`
imports the identically specified decoder from `common.ts` (absent from the
sources); this definition models both. -/
def getVersion (raw : List Nat) : Except LErr VersionResponse := do
  let response ← transportSendCheck [LedgerErrorType.NoErrors] raw
  let returnCode := statusOf response
  let targetId : Int := if 9 ≤ response.length then targetIdNum response else 0
  pure
    { returnCode := returnCode
      errorMessage := errorCodeToString returnCode
      testMode := response[0]? != some 0
      major := response[1]?
      minor := response[2]?
      patch := response[3]?
      deviceLocked := response[4]? == some 1
      targetId := intToHexStr targetId }

end Helper

namespace THORChainApp

/-- `serializePath` method of `THORChainApp` (`index.ts`): fetch the version,
surface a non-success version response, then dispatch on the major version;
only major 2 is supported.  `versionRaw` is the raw reply the transport
returns for the embedded `getVersion` call. -/
def serializePath (versionRaw : List Nat) (path : List Nat) : Except LErr (List Nat) := do
  let version ← Helper.getVersion versionRaw
  if version.returnCode ≠ LedgerErrorType.NoErrors then
    Except.error (LErr.ledger version.returnCode version.errorMessage)
  else
    match version.major with
    | some 2 => serializePathv2 path
    | _ => Except.error (LErr.ledger LedgerErrorType.ExecutionError "App Version is not supported")

/-- The chunking loop of `signGetChunks` (`index.ts`): starting at offset 0
and stepping by `CHUNK_SIZE`, push `buffer.slice(i, end)` where `end` is
`i + CHUNK_SIZE` unless the (dead) guard `i > buffer.length` fires. -/
def signGetChunksLoop (buffer : List Nat) (i : Nat) : List (List Nat) :=
  if i < buffer.length then
    bufSlice buffer i (if buffer.length < i then buffer.length else i + CHUNK_SIZE) ::
      signGetChunksLoop buffer (i + CHUNK_SIZE)
  else []
termination_by buffer.length - i
decreasing_by simp only [CHUNK_SIZE]; omega

/-- `signGetChunks` method of `THORChainApp` (`index.ts`): the serialized
path is chunk 0, followed by the message split by `signGetChunksLoop`. -/
def signGetChunks (versionRaw : List Nat) (path : List Nat) (message : List Nat) :
    Except LErr (List (List Nat)) := do
  let serializedPath ← serializePath versionRaw path
  pure (serializedPath :: signGetChunksLoop message 0)

/-- `signSendChunk` method of `THORChainApp` (`index.ts`): fetch the version
and dispatch on the major version (note: unlike `serializePath`, the method
does not re-check `version.returnCode`); only major 2 is supported. -/
def signSendChunk (versionRaw : List Nat) (chunkIdx chunkNum : Nat) (raw : List Nat) :
    Except LErr SignResult := do
  let version ← Helper.getVersion versionRaw
  match version.major with
  | some 2 => signSendChunkv2 chunkIdx chunkNum raw
  | _ => Except.error (LErr.ledger LedgerErrorType.ExecutionError "App Version is not supported")

/-- The loop of the `sign` method: for `i` from 1 while `i < chunkCount`,
send chunk `i` (reply `responses[i]`), break on a non-`NoErrors` return code,
and finally return the last result.  The second component counts the
sign-chunk transport calls made, including the pre-loop one. -/
def signLoop (versionRaw : List Nat) (responses : List (List Nat)) (chunkCount : Nat)
    (i : Nat) (result : SignResult) : Except LErr SignResult × Nat :=
  if i < chunkCount then
    match signSendChunk versionRaw (1 + i) chunkCount (responses.getD i []) with
    | Except.error e => (Except.error e, i + 1)
    | Except.ok r =>
      if r.returnCode ≠ LedgerErrorType.NoErrors then (Except.ok r, i + 1)
      else signLoop versionRaw responses chunkCount (i + 1) r
  else (Except.ok result, i)
termination_by chunkCount - i

/-- `sign` method of `THORChainApp` (`index.ts`): build the chunks, send
chunk 0 with index 1 (its return code is not inspected and its signature is
replaced by `null`), then run the loop.  `responses` holds the raw transport
reply to each sign-chunk call in order; the second component is the number of
sign-chunk calls made. -/
def sign (versionRaw : List Nat) (path : List Nat) (message : List Nat)
    (responses : List (List Nat)) : Except LErr SignResult × Nat :=
  match signGetChunks versionRaw path message with
  | Except.error e => (Except.error e, 0)
  | Except.ok chunks =>
    match signSendChunk versionRaw 1 chunks.length (responses.getD 0 []) with
    | Except.error e => (Except.error e, 1)
    | Except.ok response =>
      signLoop versionRaw responses chunks.length 1
        { returnCode := response.returnCode
          errorMessage := response.errorMessage
          signature := none }

end THORChainApp

/-- Decoded device-info reply: the dashboard-only short-circuit carries just
the code and message; the full parse carries the four decoded fields. -/
inductive DeviceInfoResponse where
  | dashboard (return_code : Nat) (error_message : String)
  | info (return_code : Nat) (error_message : String) (targetId : String)
      (seVersion : String) (flag : String) (mcuVersion : String)
deriving DecidableEq, Repr

namespace THORChainApp

/-- `deviceInfo` method of `THORChainApp` (`index.ts`), as a function of the
raw device reply: the transport accepts `NoErrors` and
`AppDoesNotSeemToBeOpen`; status 0x6E00 returns early with the dashboard-only
message; otherwise the four fields are parsed at their length-prefixed
offsets, with the MCU version's trailing zero byte dropped before text
conversion. -/
def deviceInfo (raw : List Nat) : Except LErr DeviceInfoResponse := do
  let response ← transportSendCheck
    [LedgerErrorType.NoErrors, LedgerErrorType.AppDoesNotSeemToBeOpen] raw
  let returnCode := statusOf response
  if returnCode = 0x6e00 then
    pure (DeviceInfoResponse.dashboard returnCode "This command is only available in the Dashboard")
  else
    let targetId := hexStr (bufSlice response 0 4)
    let pos := 4
    let secureElementVersionLen := response.getD pos 0
    let pos := pos + 1
    let seVersion := bytesToText (bufSlice response pos (pos + secureElementVersionLen))
    let pos := pos + secureElementVersionLen
    let flagsLen := response.getD pos 0
    let pos := pos + 1
    let flag := hexStr (bufSlice response pos (pos + flagsLen))
    let pos := pos + flagsLen
    let mcuVersionLen := response.getD pos 0
    let pos := pos + 1
    let tmp := bufSlice response pos (pos + mcuVersionLen)
    let tmp := if tmp[mcuVersionLen - 1]? = some 0
      then bufSlice response pos (pos + mcuVersionLen - 1) else tmp
    let mcuVersion := bytesToText tmp
    pure (DeviceInfoResponse.info returnCode (errorCodeToString returnCode)
      targetId seVersion flag mcuVersion)

end THORChainApp

/-- Decoded address/public-key reply of the two address methods. -/
structure AddressResponse where
  bech32_address : String
  compressed_pk : List Nat
  returnCode : Nat
  errorMessage : String
deriving DecidableEq, Repr

/-- The observable part of the APDU command an address method sends: the `P1`
parameter byte and the payload. -/
structure SentCommand where
  p1 : Nat
  data : List Nat
deriving DecidableEq, Repr

/-- Modelled from the spec: the silent-retrieval `P1` variant (`P1_VALUES` of
`common.ts`, absent from the sources; only distinctness of the two variants
matters). -/
def P1_VALUES.ONLY_RETRIEVE : Nat := 0

/-- Modelled from the spec: the on-device-confirmation `P1` variant. -/
def P1_VALUES.SHOW_ADDRESS_IN_DEVICE : Nat := 1

namespace THORChainApp

/-- `getAddressAndPubKey` method of `THORChainApp` (`index.ts`): serialize
the path (version-gated) and the HRP, send their concatenation with
`P1 = ONLY_RETRIEVE`, and decode: first 33 bytes are the compressed public
key, bytes 33 to length−2 are the address text, last two bytes the status. -/
def getAddressAndPubKey (versionRaw : List Nat) (path : List Nat) (hrp : Option (List Nat))
    (raw : List Nat) : Except LErr (SentCommand × AddressResponse) := do
  let serializedPath ← serializePath versionRaw path
  let serializedHRP ← serializeHRP hrp
  let data := serializedHRP ++ serializedPath
  let response ← transportSendCheck [LedgerErrorType.NoErrors] raw
  let returnCode := statusOf response
  pure
    ({ p1 := P1_VALUES.ONLY_RETRIEVE, data := data },
     { bech32_address := bytesToText (bufSlice response 33 (response.length - 2))
       compressed_pk := bufSlice response 0 33
       returnCode := returnCode
       errorMessage := errorCodeToString returnCode })

/-- `showAddressAndPubKey` method of `THORChainApp` (`index.ts`): identical
flow with `P1 = SHOW_ADDRESS_IN_DEVICE`. -/
def showAddressAndPubKey (versionRaw : List Nat) (path : List Nat) (hrp : Option (List Nat))
    (raw : List Nat) : Except LErr (SentCommand × AddressResponse) := do
  let serializedPath ← serializePath versionRaw path
  let hrpBuf ← serializeHRP hrp
  let data := hrpBuf ++ serializedPath
  let response ← transportSendCheck [LedgerErrorType.NoErrors] raw
  let returnCode := statusOf response
  pure
    ({ p1 := P1_VALUES.SHOW_ADDRESS_IN_DEVICE, data := data },
     { bech32_address := bytesToText (bufSlice response 33 (response.length - 2))
       compressed_pk := bufSlice response 0 33
       returnCode := returnCode
       errorMessage := errorCodeToString returnCode })

end THORChainApp

/-- C1 (counterexample): for a single-chunk set (`totalCount = 1`,
`index = 1`) the marker actually sent is `LAST`, not `INIT` as the claim
states — the `LAST` check runs after the `INIT` check and overwrites it. -/
theorem C1_counterexample :
    payloadMarker 1 1 = PayloadType.LAST ∧ PayloadType.LAST ≠ PayloadType.INIT := by
  decide

/-- C1 (amended): the payload marker is `LAST` whenever `index = totalCount`
(the single-chunk tie `totalCount = 1, index = 1` therefore resolves to
`LAST`, the later check winning), `INIT` when `index = 1` and
`index ≠ totalCount`, and `ADD` otherwise. -/
theorem C1_theorem (chunkIdx chunkNum : Nat) :
    payloadMarker chunkIdx chunkNum =
      if chunkIdx = chunkNum then PayloadType.LAST
      else if chunkIdx = 1 then PayloadType.INIT
      else PayloadType.ADD := by
  unfold payloadMarker
  by_cases h1 : chunkIdx = chunkNum <;> by_cases h2 : chunkIdx = 1 <;> simp [h1, h2]

/-- C6: `serializeHRP` yields `1 + len` bytes with byte 0 equal to `len`
followed by the raw prefix bytes for any HRP of length in `[3, 83]`, and
raises the HRP-invalid error for a null/undefined HRP or one whose length is
out of range. -/
theorem C6_theorem :
    (∀ s : List Nat, 3 ≤ s.length → s.length ≤ 83 →
      serializeHRP (some s) = Except.ok (s.length :: s) ∧
        (s.length :: s).length = 1 + s.length) ∧
    serializeHRP none = Except.error LErr.hprInvalid ∧
    (∀ s : List Nat, s.length < 3 ∨ 83 < s.length →
      serializeHRP (some s) = Except.error LErr.hprInvalid) := by
  refine ⟨?_, rfl, ?_⟩
  · intro s h3 h83
    constructor
    · simp only [serializeHRP]
      rw [if_neg (by omega)]
    · simp [Nat.add_comm]
  · intro s h
    simp only [serializeHRP]
    rw [if_pos (by omega)]

/-- C6 (witness): instantiation at the HRP "thor" and at a two-byte HRP. -/
theorem C6_witness :
    serializeHRP (some [116, 104, 111, 114]) = Except.ok [4, 116, 104, 111, 114] ∧
    serializeHRP (some [97, 98]) = Except.error LErr.hprInvalid :=
  ⟨(C6_theorem.1 [116, 104, 111, 114] (by decide) (by decide)).1,
   C6_theorem.2.2 [97, 98] (by decide)⟩

/-- Reassembling the four little-endian bytes of a 32-bit value recovers it. -/
theorem le32_readback (v : Nat) (hv : v < 2 ^ 32) :
    v % 256 + 2 ^ 8 * (v / 2 ^ 8 % 256) + 2 ^ 16 * (v / 2 ^ 16 % 256) +
      2 ^ 24 * (v / 2 ^ 24 % 256) = v := by
  omega

/-- On a 5-element in-range path, `serializePathv2` succeeds with the
concatenation of the five little-endian words. -/
theorem serializePathv2_ok (p0 p1 p2 p3 p4 : Nat)
    (h0 : p0 < 2 ^ 31) (h1 : p1 < 2 ^ 31) (h2 : p2 < 2 ^ 31)
    (h3 : p3 < 2 ^ 32) (h4 : p4 < 2 ^ 32) :
    serializePathv2 [p0, p1, p2, p3, p4] =
      Except.ok (le32 (0x80000000 + p0) ++ le32 (0x80000000 + p1) ++
        le32 (0x80000000 + p2) ++ le32 p3 ++ le32 p4) := by
  simp only [serializePathv2, writeUInt32LE, List.getD_cons_zero, List.getD_cons_succ]
  rw [if_neg (by simp)]
  rw [if_pos (by omega), if_pos (by omega), if_pos (by omega), if_pos (by omega),
    if_pos (by omega)]
  rfl

/-- C5 (counterexample): the claim quantifies over every 5-element path, but
for `path[0] = 0x80000000` the 32-bit write of `0x80000000 + path[0]` is out
of range and `serializePathv2` fails with a range error instead of producing
20 bytes. -/
theorem C5_counterexample :
    serializePathv2 [2147483648, 0, 0, 0, 0] = Except.error LErr.rangeError ∧
      LErr.rangeError ≠ LErr.invalidPath := by
  constructor
  · rfl
  · decide

/-- C5 (amended): `serializePathv2` fails with the invalid-path error when
`path.length ≠ 5`; for a 5-element path whose first three entries are below
`2^31` (and last two below `2^32`) it produces exactly 20 bytes, five
little-endian 32-bit words with words 0–2 equal to `0x80000000 + path[i]` and
words 3–4 equal to `path[3]`, `path[4]`; entries outside those ranges make
the underlying 32-bit write fail with a range error rather than wrapping. -/
theorem C5_theorem :
    (∀ path : List Nat, path.length ≠ 5 → serializePathv2 path = Except.error LErr.invalidPath) ∧
    (∀ p0 p1 p2 p3 p4 : Nat, p0 < 2 ^ 31 → p1 < 2 ^ 31 → p2 < 2 ^ 31 →
      p3 < 2 ^ 32 → p4 < 2 ^ 32 →
      ∃ out, serializePathv2 [p0, p1, p2, p3, p4] = Except.ok out ∧ out.length = 20 ∧
        readUInt32LE out 0 = 0x80000000 + p0 ∧ readUInt32LE out 4 = 0x80000000 + p1 ∧
        readUInt32LE out 8 = 0x80000000 + p2 ∧ readUInt32LE out 12 = p3 ∧
        readUInt32LE out 16 = p4) ∧
    (∀ p0 p1 p2 p3 p4 : Nat,
      2 ^ 31 ≤ p0 ∨ 2 ^ 31 ≤ p1 ∨ 2 ^ 31 ≤ p2 ∨ 2 ^ 32 ≤ p3 ∨ 2 ^ 32 ≤ p4 →
      serializePathv2 [p0, p1, p2, p3, p4] = Except.error LErr.rangeError) := by
  refine ⟨?_, ?_, ?_⟩
  · intro path h
    simp only [serializePathv2]
    rw [if_pos h]
  · intro p0 p1 p2 p3 p4 h0 h1 h2 h3 h4
    refine ⟨_, serializePathv2_ok p0 p1 p2 p3 p4 h0 h1 h2 h3 h4, ?_, ?_, ?_, ?_, ?_, ?_⟩
    · simp [le32]
    · simp [le32, readUInt32LE]; omega
    · simp [le32, readUInt32LE]; omega
    · simp [le32, readUInt32LE]; omega
    · simp [le32, readUInt32LE]; omega
    · simp [le32, readUInt32LE]; omega
  · intro p0 p1 p2 p3 p4 h
    simp only [serializePathv2, writeUInt32LE, List.getD_cons_zero, List.getD_cons_succ]
    rw [if_neg (by simp)]
    split_ifs <;> first | rfl | omega

/-- C5 (witness): instantiation at the path `[44, 931, 0, 0, 0]` and at a
two-element path. -/
theorem C5_witness :
    (∃ out, serializePathv2 [44, 931, 0, 0, 0] = Except.ok out ∧ out.length = 20 ∧
      readUInt32LE out 0 = 0x80000000 + 44 ∧ readUInt32LE out 4 = 0x80000000 + 931 ∧
      readUInt32LE out 8 = 0x80000000 + 0 ∧ readUInt32LE out 12 = 0 ∧
      readUInt32LE out 16 = 0) ∧
    serializePathv2 [44, 931] = Except.error LErr.invalidPath :=
  ⟨C5_theorem.2.1 44 931 0 0 0 (by norm_num) (by norm_num) (by norm_num)
      (by norm_num) (by norm_num),
   C5_theorem.1 [44, 931] (by simp)⟩

/-- Concatenating the chunks produced from offset `i` onward recovers the
message from offset `i` onward: the loop never pads and never drops bytes. -/
theorem signGetChunksLoop_flatten (b : List Nat) (i : Nat) :
    (THORChainApp.signGetChunksLoop b i).flatten = b.drop i := by
  rw [THORChainApp.signGetChunksLoop]
  split
  · rename_i hlt
    rw [List.flatten_cons, signGetChunksLoop_flatten b (i + CHUNK_SIZE)]
    rw [if_neg (by omega), bufSlice]
    have e1 : i + CHUNK_SIZE - i = CHUNK_SIZE := by omega
    rw [e1, ← List.drop_drop, List.take_append_drop]
  · rename_i hge
    simp [List.drop_eq_nil_of_le (by omega : b.length ≤ i)]
termination_by b.length - i
decreasing_by simp only [CHUNK_SIZE]; omega

/-- The loop produces exactly `ceil((len − i) / CHUNK_SIZE)` chunks. -/
theorem signGetChunksLoop_length (b : List Nat) (i : Nat) :
    (THORChainApp.signGetChunksLoop b i).length =
      (b.length - i + (CHUNK_SIZE - 1)) / CHUNK_SIZE := by
  rw [THORChainApp.signGetChunksLoop]
  split
  · rename_i hlt
    rw [List.length_cons, signGetChunksLoop_length b (i + CHUNK_SIZE)]
    simp only [CHUNK_SIZE] at hlt ⊢
    omega
  · rename_i hge
    simp only [CHUNK_SIZE, List.length_nil]
    omega
termination_by b.length - i
decreasing_by simp only [CHUNK_SIZE]; omega

/-- Every chunk the loop produces is at most `CHUNK_SIZE` bytes. -/
theorem signGetChunksLoop_size (b : List Nat) (i : Nat) :
    ∀ c ∈ THORChainApp.signGetChunksLoop b i, c.length ≤ CHUNK_SIZE := by
  rw [THORChainApp.signGetChunksLoop]
  split
  · rename_i hlt
    intro c hc
    rcases List.mem_cons.mp hc with h | h
    · subst h
      rw [if_neg (by omega), bufSlice]
      have e1 : i + CHUNK_SIZE - i = CHUNK_SIZE := by omega
      rw [e1]
      exact List.length_take_le _ _
    · exact signGetChunksLoop_size b (i + CHUNK_SIZE) c h
  · intro c hc
    simp at hc
termination_by b.length - i
decreasing_by simp only [CHUNK_SIZE]; omega

/-- C2: when `signGetChunks` succeeds, it returns the serialized path as
chunk 0 followed by exactly `ceil(L / 150)` payload chunks for a message of
length `L`, each at most 150 bytes, whose in-order concatenation is the
original message (so the last chunk is never padded). -/
theorem C2_theorem (versionRaw path message sp : List Nat)
    (hsp : THORChainApp.serializePath versionRaw path = Except.ok sp) :
    THORChainApp.signGetChunks versionRaw path message =
        Except.ok (sp :: THORChainApp.signGetChunksLoop message 0) ∧
    (THORChainApp.signGetChunksLoop message 0).length = (message.length + 149) / 150 ∧
    (∀ c ∈ THORChainApp.signGetChunksLoop message 0, c.length ≤ 150) ∧
    (THORChainApp.signGetChunksLoop message 0).flatten = message := by
  refine ⟨?_, ?_, ?_, ?_⟩
  · simp only [THORChainApp.signGetChunks]
    rw [hsp]
    rfl
  · rw [signGetChunksLoop_length]
    simp [CHUNK_SIZE]
  · intro c hc
    exact signGetChunksLoop_size message 0 c hc
  · rw [signGetChunksLoop_flatten]
    simp

/-- C2 (witness): a one-byte message with a five-zero path and a
major-version-2 device splits into the 20-byte path chunk plus one payload
chunk. -/
theorem C2_witness :
    THORChainApp.signGetChunks [0, 2, 0, 0, 0, 144, 0] [0, 0, 0, 0, 0] [7] =
        Except.ok ([0, 0, 0, 128, 0, 0, 0, 128, 0, 0, 0, 128, 0, 0, 0, 0, 0, 0, 0, 0] ::
          THORChainApp.signGetChunksLoop [7] 0) ∧
    (THORChainApp.signGetChunksLoop [7] 0).length = (([7] : List Nat).length + 149) / 150 ∧
    (∀ c ∈ THORChainApp.signGetChunksLoop [7] 0, c.length ≤ 150) ∧
    (THORChainApp.signGetChunksLoop [7] 0).flatten = [7] :=
  C2_theorem [0, 2, 0, 0, 0, 144, 0] [0, 0, 0, 0, 0] [7]
    [0, 0, 0, 128, 0, 0, 0, 128, 0, 0, 0, 128, 0, 0, 0, 0, 0, 0, 0, 0] (by rfl)

/-- Bind on a successful `Except` runs the continuation. -/
theorem exceptBindOk {α β : Type} (a : α) (f : α → Except LErr β) :
    (Except.ok a : Except LErr α) >>= f = f a := rfl

/-- Bind on a failed `Except` propagates the error. -/
theorem exceptBindErr {α β : Type} (e : LErr) (f : α → Except LErr β) :
    (Except.error e : Except LErr α) >>= f = Except.error e := rfl

/-- On a reply whose status is `NoErrors`, `getVersion` decodes the fixed
byte positions. -/
theorem Helper.getVersion_ok (raw : List Nat) (h : statusOf raw = LedgerErrorType.NoErrors) :
    Helper.getVersion raw = Except.ok
      { returnCode := statusOf raw
        errorMessage := errorCodeToString (statusOf raw)
        testMode := raw[0]? != some 0
        major := raw[1]?
        minor := raw[2]?
        patch := raw[3]?
        deviceLocked := raw[4]? == some 1
        targetId := intToHexStr (if 9 ≤ raw.length then Helper.targetIdNum raw else 0) } := by
  simp only [Helper.getVersion, transportSendCheck]
  rw [if_pos (by simp [h])]
  rfl

/-- On a reply whose status is not `NoErrors`, the version fetch fails at the
transport layer (the default acceptable set is `NoErrors` only). -/
theorem Helper.getVersion_err (raw : List Nat) (h : statusOf raw ≠ LedgerErrorType.NoErrors) :
    Helper.getVersion raw = Except.error (LErr.transportStatus (statusOf raw)) := by
  simp only [Helper.getVersion, transportSendCheck]
  rw [if_neg (by simp [h])]
  rfl

/-- A successfully fetched version response always carries the `NoErrors`
return code (the transport filter admits nothing else), so the explicit
return-code re-check in `serializePath` can never fire. -/
theorem Helper.getVersion_returnCode (raw : List Nat) (v : VersionResponse)
    (h : Helper.getVersion raw = Except.ok v) :
    v.returnCode = LedgerErrorType.NoErrors ∧ statusOf raw = LedgerErrorType.NoErrors ∧
      v.major = raw[1]? := by
  by_cases hs : statusOf raw = LedgerErrorType.NoErrors
  · rw [Helper.getVersion_ok raw hs] at h
    simp only [Except.ok.injEq] at h
    subst h
    exact ⟨hs, hs, rfl⟩
  · rw [Helper.getVersion_err raw hs] at h
    exact absurd h (by simp)

/-- On an accepted status with a payload present, `signSendChunkv1` returns a
result — even for the recognized failure statuses — whose `signature` field
holds the payload, with the ASCII payload appended to the message for the
failure statuses. -/
theorem signSendChunkv1_ok (p1 : PayloadType) (raw : List Nat)
    (hacc : statusOf raw = LedgerErrorType.NoErrors ∨ statusOf raw = LedgerErrorType.DataIsInvalid ∨
      statusOf raw = LedgerErrorType.BadKeyHandle)
    (hlen : 2 < raw.length) :
    signSendChunkv1 p1 raw = Except.ok
      { returnCode := statusOf raw
        errorMessage :=
          if statusOf raw = LedgerErrorType.BadKeyHandle ∨ statusOf raw = LedgerErrorType.DataIsInvalid
          then errorCodeToString (statusOf raw) ++ " : " ++ asciiStr (bufSlice raw 0 (raw.length - 2))
          else errorCodeToString (statusOf raw)
        signature := some (bufSlice raw 0 (raw.length - 2)) } := by
  simp only [signSendChunkv1, transportSendCheck]
  rw [if_pos (by simp [LedgerErrorType.NoErrors, LedgerErrorType.DataIsInvalid,
    LedgerErrorType.BadKeyHandle] at hacc ⊢; tauto)]
  simp only [exceptBindOk]
  rw [if_pos hlen]

/-- On an accepted bare status (no payload), `signSendChunkv1` throws a
`LedgerError` — even when the status is `NoErrors`. -/
theorem signSendChunkv1_err (p1 : PayloadType) (raw : List Nat)
    (hacc : statusOf raw = LedgerErrorType.NoErrors ∨ statusOf raw = LedgerErrorType.DataIsInvalid ∨
      statusOf raw = LedgerErrorType.BadKeyHandle)
    (hlen : raw.length ≤ 2) :
    signSendChunkv1 p1 raw = Except.error (LErr.ledger (statusOf raw)
      (if statusOf raw = LedgerErrorType.BadKeyHandle ∨ statusOf raw = LedgerErrorType.DataIsInvalid
       then errorCodeToString (statusOf raw) ++ " : " ++ asciiStr (bufSlice raw 0 (raw.length - 2))
       else errorCodeToString (statusOf raw))) := by
  simp only [signSendChunkv1, transportSendCheck]
  rw [if_pos (by simp [LedgerErrorType.NoErrors, LedgerErrorType.DataIsInvalid,
    LedgerErrorType.BadKeyHandle] at hacc ⊢; tauto)]
  simp only [exceptBindOk]
  rw [if_neg (by omega)]

/-- When the reply status is outside the acceptable set of the sign-chunk
command, the transport itself rejects the exchange. -/
theorem signSendChunkv1_reject (p1 : PayloadType) (raw : List Nat)
    (hacc : ¬(statusOf raw = LedgerErrorType.NoErrors ∨ statusOf raw = LedgerErrorType.DataIsInvalid ∨
      statusOf raw = LedgerErrorType.BadKeyHandle)) :
    signSendChunkv1 p1 raw = Except.error (LErr.transportStatus (statusOf raw)) := by
  simp only [signSendChunkv1, transportSendCheck]
  rw [if_neg (by simp only [List.mem_cons, List.mem_singleton]; tauto)]
  rfl

/-- `serializePath` surfaces a non-success version reply as a fatal
transport error and never reaches the path serializer. -/
theorem THORChainApp.serializePath_transport_err (vr path : List Nat)
    (h : statusOf vr ≠ LedgerErrorType.NoErrors) :
    THORChainApp.serializePath vr path = Except.error (LErr.transportStatus (statusOf vr)) := by
  simp only [THORChainApp.serializePath]
  rw [Helper.getVersion_err vr h]
  rfl

/-- With a fetched version of major 2, `serializePath` runs the v2 variant. -/
theorem THORChainApp.serializePath_major2 (vr path : List Nat) (v : VersionResponse)
    (hv : Helper.getVersion vr = Except.ok v) (hm : v.major = some 2) :
    THORChainApp.serializePath vr path = serializePathv2 path := by
  obtain ⟨hrc, -, -⟩ := Helper.getVersion_returnCode vr v hv
  simp only [THORChainApp.serializePath]
  rw [hv]
  simp only [exceptBindOk]
  rw [if_neg (by simp [hrc]), hm]

/-- With a fetched version whose major is not 2, `serializePath` fails hard
at the dispatch site with the unsupported-version error. -/
theorem THORChainApp.serializePath_badmajor (vr path : List Nat) (v : VersionResponse)
    (hv : Helper.getVersion vr = Except.ok v) (hm : v.major ≠ some 2) :
    THORChainApp.serializePath vr path =
      Except.error (LErr.ledger LedgerErrorType.ExecutionError "App Version is not supported") := by
  obtain ⟨hrc, -, -⟩ := Helper.getVersion_returnCode vr v hv
  simp only [THORChainApp.serializePath]
  rw [hv]
  simp only [exceptBindOk]
  rw [if_neg (by simp [hrc])]

/-- `signSendChunk` surfaces a non-success version reply as a fatal
transport error before sending anything. -/
theorem THORChainApp.signSendChunk_transport_err (vr : List Nat) (idx num : Nat) (raw : List Nat)
    (h : statusOf vr ≠ LedgerErrorType.NoErrors) :
    THORChainApp.signSendChunk vr idx num raw =
      Except.error (LErr.transportStatus (statusOf vr)) := by
  simp only [THORChainApp.signSendChunk]
  rw [Helper.getVersion_err vr h]
  rfl

/-- With a fetched version of major 2, `signSendChunk` runs the v2 variant. -/
theorem THORChainApp.signSendChunk_major2 (vr : List Nat) (idx num : Nat) (raw : List Nat)
    (v : VersionResponse) (hv : Helper.getVersion vr = Except.ok v) (hm : v.major = some 2) :
    THORChainApp.signSendChunk vr idx num raw = signSendChunkv2 idx num raw := by
  simp only [THORChainApp.signSendChunk]
  rw [hv]
  simp only [exceptBindOk]
  rw [hm]

/-- With a fetched version whose major is not 2, `signSendChunk` fails hard
at the dispatch site with the unsupported-version error. -/
theorem THORChainApp.signSendChunk_badmajor (vr : List Nat) (idx num : Nat) (raw : List Nat)
    (v : VersionResponse) (hv : Helper.getVersion vr = Except.ok v) (hm : v.major ≠ some 2) :
    THORChainApp.signSendChunk vr idx num raw =
      Except.error (LErr.ledger LedgerErrorType.ExecutionError "App Version is not supported") := by
  simp only [THORChainApp.signSendChunk]
  rw [hv]
  simp only [exceptBindOk]

/-- Inversion: whenever the sign-chunk send returns a result at all, the
result's code is the reply status (one of the three accepted codes), the
reply had a payload, and the `signature` field holds that payload. -/
theorem THORChainApp.signSendChunk_ok_inv (vr : List Nat) (idx num : Nat) (raw : List Nat)
    (r : SignResult) (h : THORChainApp.signSendChunk vr idx num raw = Except.ok r) :
    r.returnCode = statusOf raw ∧ 2 < raw.length ∧
      r.signature = some (bufSlice raw 0 (raw.length - 2)) ∧
      (statusOf raw = LedgerErrorType.NoErrors ∨ statusOf raw = LedgerErrorType.DataIsInvalid ∨
        statusOf raw = LedgerErrorType.BadKeyHandle) := by
  by_cases hs : statusOf vr = LedgerErrorType.NoErrors
  · by_cases hm : vr[1]? = some 2
    · rw [THORChainApp.signSendChunk_major2 vr idx num raw _ (Helper.getVersion_ok vr hs)
        (by simp [hm])] at h
      simp only [signSendChunkv2] at h
      by_cases hacc : statusOf raw = LedgerErrorType.NoErrors ∨
          statusOf raw = LedgerErrorType.DataIsInvalid ∨ statusOf raw = LedgerErrorType.BadKeyHandle
      · by_cases hlen : 2 < raw.length
        · rw [signSendChunkv1_ok _ raw hacc hlen] at h
          simp only [Except.ok.injEq] at h
          subst h
          exact ⟨rfl, hlen, rfl, hacc⟩
        · rw [signSendChunkv1_err _ raw hacc (by omega)] at h
          exact absurd h (by simp)
      · rw [signSendChunkv1_reject _ raw hacc] at h
        exact absurd h (by simp)
    · rw [THORChainApp.signSendChunk_badmajor vr idx num raw _ (Helper.getVersion_ok vr hs)
        (by simp [hm])] at h
      exact absurd h (by simp)
  · rw [THORChainApp.signSendChunk_transport_err vr idx num raw hs] at h
    exact absurd h (by simp)

/-- Running the sign loop from position `i ≤ j`: as long as every strictly
earlier loop chunk decoded to a `NoErrors` result, the loop stops right after
position `j`'s non-`NoErrors` result and returns it, having made exactly
`j + 1` sign-chunk calls in total. -/
theorem THORChainApp.signLoop_run (vr : List Nat) (responses : List (List Nat)) (N j : Nat)
    (r : SignResult) (i : Nat) (res : SignResult)
    (hmid : ∀ k, 1 ≤ k → k < j →
      ∃ rk, THORChainApp.signSendChunk vr (1 + k) N (responses.getD k []) = Except.ok rk ∧
        rk.returnCode = LedgerErrorType.NoErrors)
    (hfail : THORChainApp.signSendChunk vr (1 + j) N (responses.getD j []) = Except.ok r)
    (hr : r.returnCode ≠ LedgerErrorType.NoErrors)
    (hjN : j < N) (h1 : 1 ≤ i) (hij : i ≤ j) :
    THORChainApp.signLoop vr responses N i res = (Except.ok r, j + 1) := by
  rw [THORChainApp.signLoop, if_pos (by omega)]
  split
  · rename_i e heq
    by_cases hij2 : i = j
    · subst hij2
      rw [hfail] at heq
      exact absurd heq (by simp)
    · obtain ⟨rk, hk, -⟩ := hmid i h1 (by omega)
      rw [hk] at heq
      exact absurd heq (by simp)
  · rename_i rcur heq
    by_cases hij2 : i = j
    · subst hij2
      rw [hfail] at heq
      injection heq with h2
      subst h2
      rw [if_pos hr]
    · obtain ⟨rk, hk, hkc⟩ := hmid i h1 (by omega)
      rw [hk] at heq
      injection heq with h2
      subst h2
      rw [if_neg (by simp [hkc])]
      exact THORChainApp.signLoop_run vr responses N j r (i + 1) rk hmid hfail hr hjN
        (by omega) (by omega)
termination_by j - i

/-- When chunk building and the pre-loop send both succeed, `sign` reduces to
the loop started at position 1 with the first result's signature nulled. -/
theorem THORChainApp.sign_unfold_ok (vr path message : List Nat) (responses : List (List Nat))
    (chunks : List (List Nat)) (r0 : SignResult)
    (hc : THORChainApp.signGetChunks vr path message = Except.ok chunks)
    (h0 : THORChainApp.signSendChunk vr 1 chunks.length (responses.getD 0 []) = Except.ok r0) :
    THORChainApp.sign vr path message responses =
      THORChainApp.signLoop vr responses chunks.length 1
        { returnCode := r0.returnCode, errorMessage := r0.errorMessage, signature := none } := by
  simp only [THORChainApp.sign]
  split
  · rename_i e heq
    rw [hc] at heq
    exact absurd heq (by simp)
  · rename_i chunks2 heq
    rw [hc] at heq
    injection heq with h2
    subst h2
    split
    · rename_i e heq2
      rw [h0] at heq2
      exact absurd heq2 (by simp)
    · rename_i resp heq2
      rw [h0] at heq2
      injection heq2 with h2
      subst h2
      rfl

/-- C3 (amended): during a full sign operation the chunks are consumed
sequentially starting with the path chunk (whose return code is not
inspected); as soon as an intermediate chunk's decoded response carries a
status other than `NoErrors`, the loop aborts after exactly `j + 1` of the
`chunks.length` sends and that last result is still returned to the caller —
but it carries the failing reply's payload in its `signature` field (the
decoder returns a non-`NoErrors` result only for the invalid-data or
bad-key-handle statuses with a payload present; every other non-success
intermediate reply raises an error instead of returning a result). -/
theorem C3_theorem (vr path message : List Nat) (responses : List (List Nat))
    (chunks : List (List Nat)) (j : Nat) (r0 r : SignResult)
    (hc : THORChainApp.signGetChunks vr path message = Except.ok chunks)
    (h0 : THORChainApp.signSendChunk vr 1 chunks.length (responses.getD 0 []) = Except.ok r0)
    (h1j : 1 ≤ j) (hjN : j + 1 < chunks.length)
    (hmid : ∀ k, 1 ≤ k → k < j →
      ∃ rk, THORChainApp.signSendChunk vr (1 + k) chunks.length (responses.getD k []) =
        Except.ok rk ∧ rk.returnCode = LedgerErrorType.NoErrors)
    (hfail : THORChainApp.signSendChunk vr (1 + j) chunks.length (responses.getD j []) =
      Except.ok r)
    (hr : r.returnCode ≠ LedgerErrorType.NoErrors) :
    THORChainApp.sign vr path message responses = (Except.ok r, j + 1) ∧
      r.signature = some (bufSlice (responses.getD j []) 0 ((responses.getD j []).length - 2)) ∧
      (r.returnCode = LedgerErrorType.DataIsInvalid ∨
        r.returnCode = LedgerErrorType.BadKeyHandle) := by
  obtain ⟨hrc, hlen2, hsig, hst⟩ :=
    THORChainApp.signSendChunk_ok_inv vr (1 + j) chunks.length (responses.getD j []) r hfail
  refine ⟨?_, hsig, ?_⟩
  · rw [THORChainApp.sign_unfold_ok vr path message responses chunks r0 hc h0]
    exact THORChainApp.signLoop_run vr responses chunks.length j r 1
      { returnCode := r0.returnCode, errorMessage := r0.errorMessage, signature := none }
      hmid hfail hr (by omega) (by omega) h1j
  · rcases hst with h | h | h
    · rw [hrc] at hr
      exact absurd h (by simpa using hr)
    · exact Or.inl (by rw [hrc, h])
    · exact Or.inr (by rw [hrc, h])

/-- Concrete chunk build: a 160-byte message with a five-zero path and a
major-version-2 device yields the 20-byte path chunk plus a 150-byte and a
10-byte payload chunk. -/
theorem signDemoChunks :
    THORChainApp.signGetChunks [0, 2, 0, 0, 0, 144, 0] [0, 0, 0, 0, 0] (List.replicate 160 7) =
      Except.ok [[0, 0, 0, 128, 0, 0, 0, 128, 0, 0, 0, 128, 0, 0, 0, 0, 0, 0, 0, 0],
        List.replicate 150 7, List.replicate 10 7] := by
  have hl : THORChainApp.signGetChunksLoop (List.replicate 160 7) 0 =
      [List.replicate 150 7, List.replicate 10 7] := by
    rw [THORChainApp.signGetChunksLoop]
    norm_num [CHUNK_SIZE]
    rw [THORChainApp.signGetChunksLoop]
    norm_num [CHUNK_SIZE]
    rw [THORChainApp.signGetChunksLoop]
    norm_num [CHUNK_SIZE, bufSlice, List.take_replicate, List.drop_replicate]
  simp only [THORChainApp.signGetChunks]
  rw [show THORChainApp.serializePath [0, 2, 0, 0, 0, 144, 0] [0, 0, 0, 0, 0] =
    Except.ok [0, 0, 0, 128, 0, 0, 0, 128, 0, 0, 0, 128, 0, 0, 0, 0, 0, 0, 0, 0] from rfl]
  simp only [exceptBindOk]
  rw [hl]
  rfl

/-- C3 (counterexample): three chunks (path + 150 + 10 bytes); the path-chunk
reply is fine, the second (intermediate) chunk replies with the invalid-data
status `0x6A80` and the ASCII payload "AB".  The loop aborts after 2 of the 3
sends and the returned result is `Except.ok` — but its `signature` field is
`some [65, 66]`, not empty as the claim states. -/
theorem C3_counterexample :
    THORChainApp.sign [0, 2, 0, 0, 0, 144, 0] [0, 0, 0, 0, 0] (List.replicate 160 7)
        [[1, 144, 0], [65, 66, 106, 128], []] =
      (Except.ok { returnCode := LedgerErrorType.DataIsInvalid,
                   errorMessage := "Data is invalid : AB",
                   signature := some [65, 66] }, 2) ∧
      (some [65, 66] : Option (List Nat)) ≠ none := by
  refine ⟨?_, by simp⟩
  rw [THORChainApp.sign_unfold_ok [0, 2, 0, 0, 0, 144, 0] [0, 0, 0, 0, 0]
    (List.replicate 160 7) [[1, 144, 0], [65, 66, 106, 128], []] _
    { returnCode := 36864, errorMessage := "No errors", signature := some [1] }
    signDemoChunks (by rfl)]
  exact THORChainApp.signLoop_run [0, 2, 0, 0, 0, 144, 0]
    [[1, 144, 0], [65, 66, 106, 128], []] _ 1
    { returnCode := LedgerErrorType.DataIsInvalid,
      errorMessage := "Data is invalid : AB", signature := some [65, 66] } 1
    { returnCode := 36864, errorMessage := "No errors", signature := none }
    (fun k hk1 hk2 => absurd hk2 (by omega))
    (by rfl) (by decide) (by decide) (by decide) (by decide)

/-- C3 (witness): the amended sequencing theorem instantiated at the
three-chunk run whose intermediate chunk fails with invalid data. -/
theorem C3_witness :
    THORChainApp.sign [0, 2, 0, 0, 0, 144, 0] [0, 0, 0, 0, 0] (List.replicate 160 7)
        [[1, 144, 0], [65, 66, 106, 128], []] =
      (Except.ok { returnCode := LedgerErrorType.DataIsInvalid,
                   errorMessage := "Data is invalid : AB",
                   signature := some [65, 66] }, 2) ∧
    (some [65, 66] : Option (List Nat)) = some [65, 66] ∧
    (LedgerErrorType.DataIsInvalid = LedgerErrorType.DataIsInvalid ∨
      LedgerErrorType.DataIsInvalid = LedgerErrorType.BadKeyHandle) :=
  C3_theorem [0, 2, 0, 0, 0, 144, 0] [0, 0, 0, 0, 0] (List.replicate 160 7)
    [[1, 144, 0], [65, 66, 106, 128], []]
    [[0, 0, 0, 128, 0, 0, 0, 128, 0, 0, 0, 128, 0, 0, 0, 0, 0, 0, 0, 0],
      List.replicate 150 7, List.replicate 10 7] 1
    { returnCode := 36864, errorMessage := "No errors", signature := some [1] }
    { returnCode := LedgerErrorType.DataIsInvalid,
      errorMessage := "Data is invalid : AB", signature := some [65, 66] }
    signDemoChunks (by rfl) (by decide) (by decide)
    (fun k hk1 hk2 => absurd hk2 (by omega))
    (by rfl) (by decide)

/-- C4 (counterexample): on a reply with the recognized failure status
invalid-data (`0x6A80`) and the ASCII payload "AB", `signSendChunkv1` does
not raise — it returns a result whose `signature` field holds the payload
(the error is raised only when the payload is absent). -/
theorem C4_counterexample :
    signSendChunkv1 PayloadType.INIT [65, 66, 106, 128] =
      Except.ok { returnCode := LedgerErrorType.DataIsInvalid,
                  errorMessage := "Data is invalid : AB",
                  signature := some [65, 66] } := by
  rfl

/-- C4 (amended): `signSendChunk` of the refactored helper behaves as the
claim states — recognized failure statuses (bad key handle, invalid data,
verify error) append the trailing ASCII payload to the translated message and
raise, and a signature result is returned only on success with payload
present.  `signSendChunkv1` of `helper.ts` appends the ASCII payload for bad
key handle and invalid data, but raises only when the reply carries no
payload: with a payload present it returns a result whose `signature` field
holds the payload even for those failure statuses. -/
theorem C4_theorem :
    (∀ idx num : Nat, ∀ raw : List Nat,
      statusOf raw = LedgerErrorType.BadKeyHandle ∨ statusOf raw = LedgerErrorType.DataIsInvalid ∨
        statusOf raw = LedgerErrorType.SignVerifyError →
      Helper.signSendChunk idx num raw = Except.error (LErr.ledger (statusOf raw)
        (errorCodeToString (statusOf raw) ++ " : " ++
          asciiStr (bufSlice raw 0 (raw.length - 2))))) ∧
    (∀ idx num : Nat, ∀ raw : List Nat, ∀ r : SignResult,
      Helper.signSendChunk idx num raw = Except.ok r → r.signature ≠ none →
      statusOf raw = LedgerErrorType.NoErrors ∧ 2 < raw.length ∧
        r.signature = some (bufSlice raw 0 (raw.length - 2))) ∧
    (∀ p1 : PayloadType, ∀ raw : List Nat,
      statusOf raw = LedgerErrorType.BadKeyHandle ∨ statusOf raw = LedgerErrorType.DataIsInvalid →
      2 < raw.length →
      signSendChunkv1 p1 raw = Except.ok
        { returnCode := statusOf raw
          errorMessage := errorCodeToString (statusOf raw) ++ " : " ++
            asciiStr (bufSlice raw 0 (raw.length - 2))
          signature := some (bufSlice raw 0 (raw.length - 2)) }) ∧
    (∀ p1 : PayloadType, ∀ raw : List Nat,
      statusOf raw = LedgerErrorType.BadKeyHandle ∨ statusOf raw = LedgerErrorType.DataIsInvalid →
      raw.length ≤ 2 →
      signSendChunkv1 p1 raw = Except.error (LErr.ledger (statusOf raw)
        (errorCodeToString (statusOf raw) ++ " : " ++
          asciiStr (bufSlice raw 0 (raw.length - 2))))) := by
  refine ⟨?_, ?_, ?_, ?_⟩
  · intro idx num raw hf
    simp only [Helper.signSendChunk, transportSendCheck]
    rw [if_pos (by simp only [List.mem_cons, List.mem_singleton]; tauto)]
    simp only [exceptBindOk]
    rw [if_pos hf]
  · intro idx num raw r h hsig
    by_cases hm : statusOf raw ∈ [LedgerErrorType.NoErrors, LedgerErrorType.DataIsInvalid,
        LedgerErrorType.BadKeyHandle, LedgerErrorType.SignVerifyError]
    · simp only [Helper.signSendChunk, transportSendCheck] at h
      rw [if_pos hm] at h
      simp only [exceptBindOk] at h
      by_cases hf : statusOf raw = LedgerErrorType.BadKeyHandle ∨
          statusOf raw = LedgerErrorType.DataIsInvalid ∨
          statusOf raw = LedgerErrorType.SignVerifyError
      · rw [if_pos hf] at h
        exact absurd h (by simp)
      · rw [if_neg hf] at h
        by_cases hok : statusOf raw = LedgerErrorType.NoErrors ∧ 2 < raw.length
        · rw [if_pos hok] at h
          simp only [Except.ok.injEq] at h
          subst h
          exact ⟨hok.1, hok.2, rfl⟩
        · rw [if_neg hok] at h
          simp only [Except.ok.injEq] at h
          subst h
          simp at hsig
    · simp only [Helper.signSendChunk, transportSendCheck] at h
      rw [if_neg hm] at h
      simp only [exceptBindErr] at h
      exact absurd h (by simp)
  · intro p1 raw hf hlen
    rw [signSendChunkv1_ok p1 raw (by tauto) hlen]
    have : statusOf raw = LedgerErrorType.BadKeyHandle ∨
        statusOf raw = LedgerErrorType.DataIsInvalid := hf
    rw [if_pos this]
  · intro p1 raw hf hlen
    rw [signSendChunkv1_err p1 raw (by tauto) hlen]
    have : statusOf raw = LedgerErrorType.BadKeyHandle ∨
        statusOf raw = LedgerErrorType.DataIsInvalid := hf
    rw [if_pos this]

/-- C4 (witness): instantiation on a verify-error reply (helper decoder
raises with the payload appended) and on the invalid-data reply with payload
(v1 decoder returns a result instead). -/
theorem C4_witness :
    Helper.signSendChunk 1 1 [67, 68, 105, 134] =
      Except.error (LErr.ledger (statusOf [67, 68, 105, 134])
        (errorCodeToString (statusOf [67, 68, 105, 134]) ++ " : " ++
          asciiStr (bufSlice [67, 68, 105, 134] 0 2))) ∧
    signSendChunkv1 PayloadType.ADD [65, 66, 106, 128] =
      Except.ok { returnCode := statusOf [65, 66, 106, 128]
                  errorMessage := errorCodeToString (statusOf [65, 66, 106, 128]) ++ " : " ++
                    asciiStr (bufSlice [65, 66, 106, 128] 0 2)
                  signature := some (bufSlice [65, 66, 106, 128] 0 2) } :=
  ⟨C4_theorem.1 1 1 [67, 68, 105, 134] (by decide),
   C4_theorem.2.2.1 PayloadType.ADD [65, 66, 106, 128] (by decide) (by decide)⟩

/-- C7: both dispatch sites (`serializePath`, `signSendChunk`) fetch the
version first; a non-success version reply is surfaced as a fatal transport
error (so the operation proceeds only when the version status is `NoErrors`,
and a returned version response always carries `NoErrors`); major 2 selects
the v2 serialization/chunking variant and any other major fails hard at the
dispatch site with the unsupported-version error rather than falling back. -/
theorem C7_theorem :
    (∀ vr path : List Nat, statusOf vr ≠ LedgerErrorType.NoErrors →
      THORChainApp.serializePath vr path =
          Except.error (LErr.transportStatus (statusOf vr)) ∧
        ∀ idx num : Nat, ∀ raw : List Nat,
          THORChainApp.signSendChunk vr idx num raw =
            Except.error (LErr.transportStatus (statusOf vr))) ∧
    (∀ vr : List Nat, ∀ v : VersionResponse, Helper.getVersion vr = Except.ok v →
      v.returnCode = LedgerErrorType.NoErrors ∧ statusOf vr = LedgerErrorType.NoErrors) ∧
    (∀ vr path : List Nat, ∀ v : VersionResponse,
      Helper.getVersion vr = Except.ok v → v.major = some 2 →
      THORChainApp.serializePath vr path = serializePathv2 path) ∧
    (∀ vr : List Nat, ∀ idx num : Nat, ∀ raw : List Nat, ∀ v : VersionResponse,
      Helper.getVersion vr = Except.ok v → v.major = some 2 →
      THORChainApp.signSendChunk vr idx num raw = signSendChunkv2 idx num raw) ∧
    (∀ vr path : List Nat, ∀ v : VersionResponse,
      Helper.getVersion vr = Except.ok v → v.major ≠ some 2 →
      THORChainApp.serializePath vr path =
        Except.error (LErr.ledger LedgerErrorType.ExecutionError "App Version is not supported")) ∧
    (∀ vr : List Nat, ∀ idx num : Nat, ∀ raw : List Nat, ∀ v : VersionResponse,
      Helper.getVersion vr = Except.ok v → v.major ≠ some 2 →
      THORChainApp.signSendChunk vr idx num raw =
        Except.error (LErr.ledger LedgerErrorType.ExecutionError "App Version is not supported")) := by
  refine ⟨?_, ?_, ?_, ?_, ?_, ?_⟩
  · intro vr path h
    exact ⟨THORChainApp.serializePath_transport_err vr path h,
      fun idx num raw => THORChainApp.signSendChunk_transport_err vr idx num raw h⟩
  · intro vr v hv
    obtain ⟨h1, h2, -⟩ := Helper.getVersion_returnCode vr v hv
    exact ⟨h1, h2⟩
  · intro vr path v hv hm
    exact THORChainApp.serializePath_major2 vr path v hv hm
  · intro vr idx num raw v hv hm
    exact THORChainApp.signSendChunk_major2 vr idx num raw v hv hm
  · intro vr path v hv hm
    exact THORChainApp.serializePath_badmajor vr path v hv hm
  · intro vr idx num raw v hv hm
    exact THORChainApp.signSendChunk_badmajor vr idx num raw v hv hm

/-- C7 (witness): a locked-out version reply is surfaced as a fatal error, a
major-3 reply fails with the unsupported-version error, and a major-2 reply
dispatches to the v2 serializer. -/
theorem C7_witness :
    THORChainApp.serializePath [110, 0] [44, 931, 0, 0, 0] =
        Except.error (LErr.transportStatus (statusOf [110, 0])) ∧
    THORChainApp.serializePath [0, 3, 0, 0, 0, 144, 0] [44, 931, 0, 0, 0] =
        Except.error (LErr.ledger LedgerErrorType.ExecutionError
          "App Version is not supported") ∧
    THORChainApp.serializePath [0, 2, 0, 0, 0, 144, 0] [44, 931, 0, 0, 0] =
        serializePathv2 [44, 931, 0, 0, 0] :=
  ⟨(C7_theorem.1 [110, 0] [44, 931, 0, 0, 0] (by decide)).1,
   C7_theorem.2.2.2.2.1 [0, 3, 0, 0, 0, 144, 0] [44, 931, 0, 0, 0] _ (by rfl) (by decide),
   C7_theorem.2.2.1 [0, 2, 0, 0, 0, 144, 0] [44, 931, 0, 0, 0] _ (by rfl) (by decide)⟩

/-- The JavaScript shift-and-add accumulation of `targetId` equals the
big-endian 32-bit value of bytes 5–8 modulo `2^32` (the sign of the JS
number may differ when byte 5 has its high bit set, but the 32-bit value is
the big-endian read). -/
theorem targetIdNum_emod (raw : List Nat) (hb5 : raw.getD 5 0 < 256)
    (hb6 : raw.getD 6 0 < 256) (hb7 : raw.getD 7 0 < 256) (hb8 : raw.getD 8 0 < 256) :
    Helper.targetIdNum raw % (2 ^ 32 : Int) =
      ((raw.getD 5 0 * 2 ^ 24 + raw.getD 6 0 * 2 ^ 16 + raw.getD 7 0 * 2 ^ 8 +
        raw.getD 8 0 : Nat) : Int) := by
  have e5 : raw.getD 5 0 * 2 ^ 24 % 2 ^ 32 = raw.getD 5 0 * 2 ^ 24 :=
    Nat.mod_eq_of_lt (by omega)
  have e6 : raw.getD 6 0 * 2 ^ 16 % 2 ^ 32 = raw.getD 6 0 * 2 ^ 16 :=
    Nat.mod_eq_of_lt (by omega)
  have e7 : raw.getD 7 0 * 2 ^ 8 % 2 ^ 32 = raw.getD 7 0 * 2 ^ 8 :=
    Nat.mod_eq_of_lt (by omega)
  have e8 : raw.getD 8 0 * 2 ^ 0 % 2 ^ 32 = raw.getD 8 0 * 2 ^ 0 :=
    Nat.mod_eq_of_lt (by omega)
  simp only [Helper.targetIdNum, jsShiftL, asInt32, e5, e6, e7, e8]
  split_ifs <;> push_cast <;> omega

/-- C8: the version decoder reads `testMode` from byte 0, `major`, `minor`,
`patch` from bytes 1–3 and `deviceLocked` from byte 4; the big-endian 32-bit
`targetId` is taken from bytes 5–8 only when the total reply length is at
least 9, and is 0 for shorter replies. -/
theorem C8_theorem (raw : List Nat) (v : VersionResponse)
    (h : Helper.getVersion raw = Except.ok v)
    (hbytes : ∀ b ∈ raw, b < 256) (hlen : 5 ≤ raw.length) :
    v.testMode = (raw.getD 0 0 != 0) ∧
    v.major = some (raw.getD 1 0) ∧
    v.minor = some (raw.getD 2 0) ∧
    v.patch = some (raw.getD 3 0) ∧
    v.deviceLocked = (raw.getD 4 0 == 1) ∧
    (9 ≤ raw.length →
      v.targetId = intToHexStr (Helper.targetIdNum raw) ∧
      Helper.targetIdNum raw % (2 ^ 32 : Int) =
        ((raw.getD 5 0 * 2 ^ 24 + raw.getD 6 0 * 2 ^ 16 + raw.getD 7 0 * 2 ^ 8 +
          raw.getD 8 0 : Nat) : Int)) ∧
    (raw.length < 9 → v.targetId = "0") := by
  obtain ⟨-, hs, -⟩ := Helper.getVersion_returnCode raw v h
  rw [Helper.getVersion_ok raw hs] at h
  simp only [Except.ok.injEq] at h
  subst h
  have g : ∀ i : Nat, i < raw.length → raw[i]? = some (raw.getD i 0) := by
    intro i hi
    rw [List.getElem?_eq_getElem hi]
    simp [List.getD_eq_getElem?_getD, List.getElem?_eq_getElem hi]
  refine ⟨?_, ?_, ?_, ?_, ?_, ?_, ?_⟩
  · rw [g 0 (by omega)]
    cases e : (raw.getD 0 0 == 0) <;> simp_all [bne]
  · exact g 1 (by omega)
  · exact g 2 (by omega)
  · exact g 3 (by omega)
  · rw [g 4 (by omega)]
    cases e : (raw.getD 4 0 == 1) <;> simp_all
  · intro h9
    refine ⟨by rw [if_pos h9], ?_⟩
    have m : ∀ i : Nat, i < raw.length → raw.getD i 0 < 256 := by
      intro i hi
      have : raw.getD i 0 = raw[i] := List.getD_eq_getElem raw 0 hi
      rw [this]
      exact hbytes _ (List.getElem_mem hi)
    exact targetIdNum_emod raw (m 5 (by omega)) (m 6 (by omega)) (m 7 (by omega))
      (m 8 (by omega))
  · intro h9
    rw [if_neg (by omega : ¬ 9 ≤ raw.length)]
    rfl

/-- Shortening a slice by one byte from the right is `dropLast` of the slice,
provided the full slice fits in the buffer. -/
theorem bufSlice_dropLast (raw : List Nat) (pos k : Nat) (h : pos + k ≤ raw.length) :
    bufSlice raw pos (pos + k - 1) = (bufSlice raw pos (pos + k)).dropLast := by
  simp only [bufSlice, List.dropLast_eq_take, List.take_take, List.length_take,
    List.length_drop]
  congr 1
  omega

/-- A slice that fits in the buffer has the requested length. -/
theorem bufSlice_length (raw : List Nat) (pos k : Nat) (h : pos + k ≤ raw.length) :
    (bufSlice raw pos (pos + k)).length = k := by
  simp only [bufSlice, List.length_take, List.length_drop]
  omega

/-- The index-based trailing-byte probe of the MCU trim is the last byte of
the field, provided the field fits in the buffer. -/
theorem bufSlice_probe (raw : List Nat) (pos k : Nat) (h : pos + k ≤ raw.length) :
    (bufSlice raw pos (pos + k))[k - 1]? = (bufSlice raw pos (pos + k)).getLast? := by
  rcases Nat.eq_zero_or_pos k with hk | hk
  · subst hk
    have : bufSlice raw pos (pos + 0) = [] := by
      simp [bufSlice]
    rw [this]
    rfl
  · rw [List.getLast?_eq_getElem?, bufSlice_length raw pos k h]

/-- C9: a device-info reply with status `0x6E00` short-circuits to the
dashboard-only message as a successful structured response, regardless of the
body (no field is parsed); otherwise (status `NoErrors`) the decoder parses
`targetId` (bytes 0–3, hex), the length-prefixed secure-element version
(length at byte 4), the length-prefixed flags (hex) and the length-prefixed
MCU version, and when the MCU version field's last byte is 0 it is dropped
before the text conversion. -/
theorem C9_theorem :
    (∀ raw : List Nat, 2 ≤ raw.length → statusOf raw = 0x6e00 →
      THORChainApp.deviceInfo raw = Except.ok (DeviceInfoResponse.dashboard 0x6e00
        "This command is only available in the Dashboard")) ∧
    (∀ raw : List Nat, ∀ seLen flagsLen mcuLen : Nat,
      statusOf raw = LedgerErrorType.NoErrors →
      raw.getD 4 0 = seLen →
      raw.getD (4 + 1 + seLen) 0 = flagsLen →
      raw.getD (4 + 1 + seLen + 1 + flagsLen) 0 = mcuLen →
      4 + 1 + seLen + 1 + flagsLen + 1 + mcuLen ≤ raw.length →
      THORChainApp.deviceInfo raw = Except.ok (DeviceInfoResponse.info (statusOf raw)
        (errorCodeToString (statusOf raw))
        (hexStr (bufSlice raw 0 4))
        (bytesToText (bufSlice raw (4 + 1) (4 + 1 + seLen)))
        (hexStr (bufSlice raw (4 + 1 + seLen + 1) (4 + 1 + seLen + 1 + flagsLen)))
        (bytesToText
          (if (bufSlice raw (4 + 1 + seLen + 1 + flagsLen + 1)
                (4 + 1 + seLen + 1 + flagsLen + 1 + mcuLen)).getLast? = some 0
           then (bufSlice raw (4 + 1 + seLen + 1 + flagsLen + 1)
                (4 + 1 + seLen + 1 + flagsLen + 1 + mcuLen)).dropLast
           else bufSlice raw (4 + 1 + seLen + 1 + flagsLen + 1)
                (4 + 1 + seLen + 1 + flagsLen + 1 + mcuLen))))) := by
  constructor
  · intro raw hl2 hst
    simp only [THORChainApp.deviceInfo, transportSendCheck]
    rw [if_pos (by simp [hst, LedgerErrorType.NoErrors,
      LedgerErrorType.AppDoesNotSeemToBeOpen])]
    simp only [exceptBindOk]
    rw [if_pos hst, hst]
    rfl
  · intro raw seLen flagsLen mcuLen hst h4 h5 h6 hwf
    subst h4
    subst h5
    subst h6
    simp only [THORChainApp.deviceInfo, transportSendCheck]
    rw [if_pos (by simp [hst])]
    simp only [exceptBindOk]
    rw [if_neg (by simp [hst, LedgerErrorType.NoErrors])]
    rw [bufSlice_probe raw (4 + 1 + raw.getD 4 0 + 1 + raw.getD (4 + 1 + raw.getD 4 0) 0 + 1)
      (raw.getD (4 + 1 + raw.getD 4 0 + 1 + raw.getD (4 + 1 + raw.getD 4 0) 0) 0) hwf]
    rw [bufSlice_dropLast raw (4 + 1 + raw.getD 4 0 + 1 + raw.getD (4 + 1 + raw.getD 4 0) 0 + 1)
      (raw.getD (4 + 1 + raw.getD 4 0 + 1 + raw.getD (4 + 1 + raw.getD 4 0) 0) 0) hwf]
    rfl

/-- C8 (witness): the decoder applied to an 11-byte reply with version bytes
2.3.4 and targetId 7. -/
theorem C8_witness :
    ({ returnCode := 36864, errorMessage := "No errors", testMode := true,
       major := some 2, minor := some 3, patch := some 4, deviceLocked := true,
       targetId := "7" } : VersionResponse).major = some 2 ∧
    Helper.targetIdNum [1, 2, 3, 4, 1, 0, 0, 0, 7, 144, 0] % (2 ^ 32 : Int) = 7 :=
  ⟨(C8_theorem [1, 2, 3, 4, 1, 0, 0, 0, 7, 144, 0] _ (by rfl) (by decide) (by decide)).2.1,
   ((C8_theorem [1, 2, 3, 4, 1, 0, 0, 0, 7, 144, 0] _ (by rfl) (by decide)
      (by decide)).2.2.2.2.2.1 (by decide)).2⟩

/-- C9 (witness): the dashboard short-circuit on a bare `0x6E00` status and a
full parse whose MCU version field `[49, 46, 0]` loses its trailing zero. -/
theorem C9_witness :
    THORChainApp.deviceInfo [110, 0] = Except.ok (DeviceInfoResponse.dashboard 0x6e00
      "This command is only available in the Dashboard") ∧
    THORChainApp.deviceInfo [1, 2, 3, 4, 2, 51, 49, 1, 5, 3, 49, 46, 0, 144, 0] =
      Except.ok (DeviceInfoResponse.info 36864 "No errors" "01020304" "31" "05" "1.") :=
  ⟨C9_theorem.1 [110, 0] (by decide) (by decide),
   C9_theorem.2 [1, 2, 3, 4, 2, 51, 49, 1, 5, 3, 49, 46, 0, 144, 0] 2 1 3
     (by decide) (by decide) (by decide) (by decide) (by decide)⟩

/-- A transport send that returns at all returns the raw reply unchanged,
and its status was in the acceptable set. -/
theorem transportSendCheck_ok (acc raw resp : List Nat)
    (h : transportSendCheck acc raw = Except.ok resp) :
    resp = raw ∧ statusOf raw ∈ acc := by
  simp only [transportSendCheck] at h
  by_cases hm : statusOf raw ∈ acc
  · rw [if_pos hm] at h
    simp only [Except.ok.injEq] at h
    exact ⟨h.symm, hm⟩
  · rw [if_neg hm] at h
    exact absurd h (by simp)

/-- C10: `getAddressAndPubKey` and `showAddressAndPubKey` decode identically
— for the same path, HRP and raw reply both produce the same decoded
response (also in every error case), the same payload is sent, and the
decoded result takes the compressed public key from the first 33 bytes, the
address text from byte 33 up to the two trailing status bytes, and the
return code from the status word; the two methods differ only in the `P1`
parameter byte (silent retrieval versus on-device confirmation). -/
theorem C10_theorem (vr path : List Nat) (hrp : Option (List Nat)) (raw : List Nat) :
    ((THORChainApp.getAddressAndPubKey vr path hrp raw).map Prod.snd =
      (THORChainApp.showAddressAndPubKey vr path hrp raw).map Prod.snd) ∧
    (∀ c : SentCommand, ∀ r : AddressResponse,
      THORChainApp.getAddressAndPubKey vr path hrp raw = Except.ok (c, r) →
      c.p1 = P1_VALUES.ONLY_RETRIEVE ∧
      THORChainApp.showAddressAndPubKey vr path hrp raw =
        Except.ok ({ p1 := P1_VALUES.SHOW_ADDRESS_IN_DEVICE, data := c.data }, r) ∧
      r.compressed_pk = bufSlice raw 0 33 ∧
      r.bech32_address = bytesToText (bufSlice raw 33 (raw.length - 2)) ∧
      r.returnCode = statusOf raw ∧
      (35 ≤ raw.length → r.compressed_pk.length = 33)) ∧
    P1_VALUES.ONLY_RETRIEVE ≠ P1_VALUES.SHOW_ADDRESS_IN_DEVICE := by
  refine ⟨?_, ?_, by decide⟩
  · rcases hsp : THORChainApp.serializePath vr path with e | sp
    · simp only [THORChainApp.getAddressAndPubKey, THORChainApp.showAddressAndPubKey, hsp,
        exceptBindErr]
    · rcases hh : serializeHRP hrp with e2 | hb
      · simp only [THORChainApp.getAddressAndPubKey, THORChainApp.showAddressAndPubKey, hsp,
          hh, exceptBindOk, exceptBindErr]
      · rcases htc : transportSendCheck [LedgerErrorType.NoErrors] raw with e3 | resp
        · simp only [THORChainApp.getAddressAndPubKey, THORChainApp.showAddressAndPubKey,
            hsp, hh, htc, exceptBindOk, exceptBindErr]
        · simp only [THORChainApp.getAddressAndPubKey, THORChainApp.showAddressAndPubKey,
            hsp, hh, htc, exceptBindOk]
          rfl
  · intro c r h
    rcases hsp : THORChainApp.serializePath vr path with e | sp
    · simp only [THORChainApp.getAddressAndPubKey, hsp, exceptBindErr] at h
      exact absurd h (by simp)
    · rcases hh : serializeHRP hrp with e2 | hb
      · simp only [THORChainApp.getAddressAndPubKey, hsp, hh, exceptBindOk, exceptBindErr] at h
        exact absurd h (by simp)
      · rcases htc : transportSendCheck [LedgerErrorType.NoErrors] raw with e3 | resp
        · simp only [THORChainApp.getAddressAndPubKey, hsp, hh, htc, exceptBindOk,
            exceptBindErr] at h
          exact absurd h (by simp)
        · obtain ⟨rfl, -⟩ := transportSendCheck_ok _ _ _ htc
          simp only [THORChainApp.getAddressAndPubKey, hsp, hh, htc, exceptBindOk,
            Except.ok.injEq, Prod.mk.injEq] at h
          obtain ⟨hc, hr⟩ := h
          refine ⟨rfl, ?_, rfl, rfl, rfl, ?_⟩
          · simp only [THORChainApp.showAddressAndPubKey, hsp, hh, htc, exceptBindOk]
            rfl
          · intro h35
            simp only [bufSlice, List.length_take, List.length_drop]
            omega

/-- C10 (witness): both address methods on a major-2 device, the HRP "thor",
a five-zero path and a 39-byte reply (33-byte key, "thor" address text,
status `0x9000`). -/
theorem C10_witness :
    ({ p1 := P1_VALUES.ONLY_RETRIEVE,
       data := [4, 116, 104, 111, 114, 0, 0, 0, 128, 0, 0, 0, 128, 0, 0, 0, 128,
         0, 0, 0, 0, 0, 0, 0, 0] } : SentCommand).p1 = P1_VALUES.ONLY_RETRIEVE ∧
    THORChainApp.showAddressAndPubKey [0, 2, 0, 0, 0, 144, 0] [0, 0, 0, 0, 0]
        (some [116, 104, 111, 114]) (List.replicate 33 2 ++ [116, 104, 111, 114, 144, 0]) =
      Except.ok
        ({ p1 := P1_VALUES.SHOW_ADDRESS_IN_DEVICE,
           data := [4, 116, 104, 111, 114, 0, 0, 0, 128, 0, 0, 0, 128, 0, 0, 0, 128,
             0, 0, 0, 0, 0, 0, 0, 0] },
         { bech32_address := "thor", compressed_pk := List.replicate 33 2,
           returnCode := 36864, errorMessage := "No errors" }) ∧
    (({ bech32_address := "thor", compressed_pk := List.replicate 33 2,
        returnCode := 36864, errorMessage := "No errors" } : AddressResponse).compressed_pk =
      bufSlice (List.replicate 33 2 ++ [116, 104, 111, 114, 144, 0]) 0 33) ∧
    (({ bech32_address := "thor", compressed_pk := List.replicate 33 2,
        returnCode := 36864, errorMessage := "No errors" } : AddressResponse).bech32_address =
      bytesToText (bufSlice (List.replicate 33 2 ++ [116, 104, 111, 114, 144, 0]) 33
        ((List.replicate 33 2 ++ [116, 104, 111, 114, 144, 0] : List Nat).length - 2))) ∧
    (({ bech32_address := "thor", compressed_pk := List.replicate 33 2,
        returnCode := 36864, errorMessage := "No errors" } : AddressResponse).returnCode =
      statusOf (List.replicate 33 2 ++ [116, 104, 111, 114, 144, 0])) ∧
    (35 ≤ (List.replicate 33 2 ++ [116, 104, 111, 114, 144, 0] : List Nat).length →
      ({ bech32_address := "thor", compressed_pk := List.replicate 33 2,
         returnCode := 36864, errorMessage := "No errors" } : AddressResponse).compressed_pk.length = 33) :=
  (C10_theorem [0, 2, 0, 0, 0, 144, 0] [0, 0, 0, 0, 0] (some [116, 104, 111, 114])
      (List.replicate 33 2 ++ [116, 104, 111, 114, 144, 0])).2.1
    { p1 := P1_VALUES.ONLY_RETRIEVE,
      data := [4, 116, 104, 111, 114, 0, 0, 0, 128, 0, 0, 0, 128, 0, 0, 0, 128,
        0, 0, 0, 0, 0, 0, 0, 0] }
    { bech32_address := "thor", compressed_pk := List.replicate 33 2,
      returnCode := 36864, errorMessage := "No errors" }
    (by rfl)
